import Mathlib

/-!
Verification of the Monte-Carlo false-positive-rate simulator (`src/main.py`).

The development shallowly embeds the computational core of the program:
the six distribution descriptor classes (parameter storage and
`validate_parameter`), the derived population mean each class stores in
`self.mean`, and the `simulation` loop (progress reporting, repeated
sampling, t-testing, p-value collection and the final FPR computation).

Python floats are modelled as exact rationals (`ℚ`).  The external scipy
library (the samplers, the skew-normal mean and `ttest_1samp`) is not part
of the repository; it is abstracted by the `Scipy` structure whose fields
stand for the library calls the source makes, and — where a claim is about
the library's documented behaviour itself — modelled separately from the
spec over `ℝ`.
-/

/-- Result of a scipy p-value computation: either an ordinary number or the
IEEE NaN that scipy produces for undefined statistics.  In Python,
`nan < 0.05` is `False`, which `ltPointZeroFive` below reproduces. -/
inductive PVal (α : Type) where
  | val (p : α)
  | nan
deriving DecidableEq, Repr

/-- Distribution descriptors, one constructor per source class, carrying the
fields set by `input_parameter` (`src/main.py`).  `ChiSquare.df` comes from an
integer widget; all other parameters are real-valued (modelled as `ℚ`). -/
inductive DistributionSpec where
  | ChiSquare (df : ℤ)
  | Beta (alpha beta : ℚ)
  | Exponential (beta : ℚ)
  | Uniform (a b : ℚ)
  | SkewNormal (loc scale alpha : ℚ)
  | Normal (mean s_dev : ℚ)
deriving DecidableEq, Repr

/-- Python `ValueError`, the exception every `validate_parameter` raises
(`src/main.py` lines 39-41, 71-73, 100-102, 132-134, 167-169, 198-200). -/
inductive ValueError where
  | valueError
deriving DecidableEq, Repr

/-- Embedding of the six `validate_parameter` methods: each raises
`ValueError` exactly on the guard written in the source
(`if self.df <= 0`, `if self.alpha <= 0 or self.beta <= 0`,
`if self.beta <= 0`, `if self.a >= self.b`, `if self.scale <= 0`,
`if self.s_dev <= 0`), and otherwise returns normally. -/
def validate_parameter : DistributionSpec → Except ValueError Unit
  | .ChiSquare df => if df ≤ 0 then .error .valueError else .ok ()
  | .Beta alpha beta => if alpha ≤ 0 ∨ beta ≤ 0 then .error .valueError else .ok ()
  | .Exponential beta => if beta ≤ 0 then .error .valueError else .ok ()
  | .Uniform a b => if a ≥ b then .error .valueError else .ok ()
  | .SkewNormal _ scale _ => if scale ≤ 0 then .error .valueError else .ok ()
  | .Normal _ s_dev => if s_dev ≤ 0 then .error .valueError else .ok ()

/-- Validity constraint column of the table in section 3 of the spec:
k > 0; α > 0 and β > 0; β > 0; a < b; ω > 0; σ > 0.  This definition
follows the spec's words and is compared against `validate_parameter`,
which is embedded from the source. -/
def tableConstraint : DistributionSpec → Prop
  | .ChiSquare df => 0 < df
  | .Beta alpha beta => 0 < alpha ∧ 0 < beta
  | .Exponential beta => 0 < beta
  | .Uniform a b => a < b
  | .SkewNormal _ scale _ => 0 < scale
  | .Normal _ s_dev => 0 < s_dev

/-- Population mean each class stores in `self.mean` during
`input_parameter`.  The source obtains it from scipy
(`chi2(df=k).mean() = k`, `beta(a,b).mean() = a/(a+b)`,
`expon(loc=0, scale=b).mean() = b`, `uniform(a, b-a).mean() = a+(b-a)/2`),
except `Normal`, where `self.mean` is the parameter μ itself.  The
skew-normal mean `skewnorm(α, ξ, ω).mean()` is irrational in general, so it
is abstracted by the function `smean` standing for that scipy call. -/
def DistributionSpec.mean (smean : ℚ → ℚ → ℚ → ℚ) : DistributionSpec → ℚ
  | .ChiSquare df => (df : ℚ)
  | .Beta alpha beta => alpha / (alpha + beta)
  | .Exponential beta => beta
  | .Uniform a b => a + (b - a) / 2
  | .SkewNormal loc scale alpha => smean loc scale alpha
  | .Normal mean _ => mean

/-- True-mean column of the table in section 3 of the spec: k, α/(α+β), β,
(a+b)/2, the closed form of ξ, ω, α (given by no explicit formula in the
spec, hence the same abstract scipy mean `smean`), and μ.  This definition
follows the spec's words and is compared against `DistributionSpec.mean`. -/
def specTrueMean (smean : ℚ → ℚ → ℚ → ℚ) : DistributionSpec → ℚ
  | .ChiSquare df => (df : ℚ)
  | .Beta alpha beta => alpha / (alpha + beta)
  | .Exponential beta => beta
  | .Uniform a b => (a + b) / 2
  | .SkewNormal loc scale alpha => smean loc scale alpha
  | .Normal mean _ => mean

/-- C4: for each of the six distribution variants, parameter validation
fails with the distinguishable `ValueError` exactly when the table
constraint of section 3 is violated — strictly interior parameter
combinations are accepted and everything else, boundary values included,
is rejected. -/
theorem validate_parameter_iff_tableConstraint (spec : DistributionSpec) :
    (validate_parameter spec = .ok () ↔ tableConstraint spec) ∧
    (validate_parameter spec = .error .valueError ↔ ¬ tableConstraint spec) := by
  cases spec <;> simp only [validate_parameter, tableConstraint] <;>
    split <;> rename_i h <;> simp_all <;> try linarith
  all_goals (intro h1; rcases h with h2 | h2 <;> linarith)

/-- C3: for every distribution variant with valid parameters, the mean the
source stores in `self.mean` equals the closed form in the true-mean column
of the table in section 3 of the spec. -/
theorem mean_eq_specTrueMean (smean : ℚ → ℚ → ℚ → ℚ) (spec : DistributionSpec)
    (h : validate_parameter spec = .ok ()) :
    DistributionSpec.mean smean spec = specTrueMean smean spec := by
  cases spec <;> simp only [DistributionSpec.mean, specTrueMean] <;> ring

/-- Witness for C3 at the concrete spec Uniform 1 3: validation succeeds and
the stored mean 1 + (3-1)/2 equals the table's (1+3)/2 = 2. -/
theorem mean_eq_specTrueMean_witness :
    validate_parameter (.Uniform 1 3) = .ok () ∧
    DistributionSpec.mean (fun a _ _ => a) (.Uniform 1 3) =
      specTrueMean (fun a _ _ => a) (.Uniform 1 3) :=
  ⟨rfl, mean_eq_specTrueMean (fun a _ _ => a) (.Uniform 1 3) rfl⟩

deriving instance DecidableEq for Except

/-- Significance comparison `i < 0.05` from the comprehension
`[i for i in p_values if i < 0.05]` (`src/main.py` line 236).  The Python
comparison `nan < 0.05` is `False`, so a NaN p-value is never counted.
The threshold 0.05 is the literal constant written in the source, not a
parameter of any function. -/
def ltPointZeroFive : PVal ℚ → Bool
  | .val p => decide (p < 1 / 20)
  | .nan => false

/-- Abstraction of the scipy/numpy library calls the source makes.  `draw`
stands for the sampler each `get_sample` method calls
(`np.random.chisquare` and friends, or `scipy_object.rvs`): it reads the
spec's current parameters and the global random-generator state and returns
the sample together with the advanced generator state.  `skewnormMean`
stands for `skewnorm(α, ξ, ω).mean()`, `ttest_1samp` for
`scipy.stats.ttest_1samp(sample, popmean).pvalue`. -/
structure Scipy (σ : Type) where
  draw : DistributionSpec → ℕ → σ → List ℚ × σ
  skewnormMean : ℚ → ℚ → ℚ → ℚ
  ttest_1samp : List ℚ → ℚ → PVal ℚ

/-- Program state visible to the simulation loop: the distribution object
`obj` and the ambient `np.random` generator state. -/
structure ProgState (σ : Type) where
  spec : DistributionSpec
  rng : σ
deriving DecidableEq

/-- Embedding of the `get_sample` methods: every one of the six reads the
object's current parameters and the global random generator, returns the
drawn sample, and advances only the generator (none of the method bodies
assigns to `self`). -/
def get_sample (S : Scipy σ) (st : ProgState σ) (n : ℕ) : List ℚ × ProgState σ :=
  let d := S.draw st.spec n st.rng
  (d.1, { spec := st.spec, rng := d.2 })

/-- Exact-arithmetic meaning of the Python test `x % y == 0.0` for floats:
true when `y` is nonzero and divides `x` over the rationals.  (For `y = 0`
Python would raise, but the only use site is unreachable then.) -/
def ratDivides (y x : ℚ) : Bool := y ≠ 0 && (x / y).den == 1

/-- Python `int(...)` truncation toward zero on a rational. -/
def pyInt (q : ℚ) : ℤ := if q < 0 then -(⌊-q⌋) else ⌊q⌋

/-- Guard `i % ten_percent == 0` of `src/main.py` line 228, with
`ten_percent = n_iter/10` (line 224) in exact arithmetic. -/
def progressCondition (nIter i : ℕ) : Bool := ratDivides ((nIter : ℚ) / 10) (i : ℚ)

/-- Argument `int(i/denom)` passed to `prog_bar.progress` on `src/main.py`
line 229, with `denom = n_iter/100` (line 225): the completion percentage. -/
def progressValue (nIter i : ℕ) : ℤ := pyInt ((i : ℚ) / ((nIter : ℚ) / 100))

/-- Record of one loop iteration: the drawn sample, the null-hypothesis
mean `obj.mean` passed to `ttest_1samp`, and the resulting p-value
(`src/main.py` lines 230-232). -/
structure IterationRecord where
  sample : List ℚ
  hypothesizedMean : ℚ
  pValue : PVal ℚ
deriving DecidableEq

/-- Accumulated loop data: the evolving program state, the `p_values` list,
the successive arguments of `prog_bar.progress`, and the per-iteration
trace. -/
structure LoopState (σ : Type) where
  state : ProgState σ
  p_values : List (PVal ℚ)
  reports : List ℤ
  trace : List IterationRecord
deriving DecidableEq

/-- Body of `for i in range(1, n_iter+1)` (`src/main.py` lines 227-232):
conditionally report progress, then `sample_data = obj.get_sample(n)`,
`p_result = ttest_1samp(sample_data, obj.mean).pvalue`,
`p_values.append(p_result)`. -/
def simulationStep (S : Scipy σ) (n nIter : ℕ) (ls : LoopState σ) (i : ℕ) : LoopState σ :=
  let reports := if progressCondition nIter i
    then ls.reports ++ [progressValue nIter i] else ls.reports
  let drawn := get_sample S ls.state n
  let mu0 := DistributionSpec.mean S.skewnormMean drawn.2.spec
  let p := S.ttest_1samp drawn.1 mu0
  { state := drawn.2,
    p_values := ls.p_values ++ [p],
    reports := reports,
    trace := ls.trace ++ [{ sample := drawn.1, hypothesizedMean := mu0, pValue := p }] }

/-- Loop state before the first iteration: `prog_bar = st.progress(0)` has
already reported 0 and `p_values = []` (`src/main.py` lines 222-223). -/
def initialLoopState (st : ProgState σ) : LoopState σ :=
  { state := st, p_values := [], reports := [0], trace := [] }

/-- Whole `for` loop of `simulation`, iterating `i` over `1, ..., n_iter`. -/
def runLoop (S : Scipy σ) (st : ProgState σ) (n nIter : ℕ) : LoopState σ :=
  (List.range' 1 nIter).foldl (simulationStep S n nIter) (initialLoopState st)

/-- Failures the simulation can surface.  `zeroDivisionError` is the Python
`ZeroDivisionError` raised by `len([...])/denom` when `denom = n_iter/100`
is zero.  `invalidConfiguration` is modelled from the spec: the
configuration-boundary rejection policy contemplated in section 8; the
source contains no such check and never produces it. -/
inductive SimError where
  | zeroDivisionError
  | invalidConfiguration
deriving DecidableEq, Repr

/-- Observable outcome of one call of `simulation`: the progress calls and
the per-iteration trace (effects that happen before the return), the final
program state, and either the returned pair `(p_values, fpr)` or the
exception that escapes. -/
structure SimulationOutcome (σ : Type) where
  reports : List ℤ
  trace : List IterationRecord
  finalState : ProgState σ
  result : Except SimError (List (PVal ℚ) × ℚ)
deriving DecidableEq

/-- Embedding of `simulation(obj, n, n_iter)` (`src/main.py` lines
217-238): run the loop, then compute
`fpr = len([i for i in p_values if i < 0.05]) / denom` with
`denom = n_iter/100`; when `n_iter = 0` that division is by zero and the
call raises `ZeroDivisionError` instead of returning. -/
def simulation (S : Scipy σ) (st : ProgState σ) (n nIter : ℕ) : SimulationOutcome σ :=
  let ls := runLoop S st n nIter
  let denom : ℚ := (nIter : ℚ) / 100
  { reports := ls.reports,
    trace := ls.trace,
    finalState := ls.state,
    result := if denom = 0 then .error .zeroDivisionError
      else .ok (ls.p_values, ((ls.p_values.filter ltPointZeroFive).length : ℚ) / denom) }

/-- Concrete scipy stand-in used by witnesses: a counter random source and
an arbitrary rational-valued test statistic. -/
def exampleRand : Scipy ℕ where
  draw := fun _ n s => (List.replicate n (s : ℚ), s + 1)
  skewnormMean := fun a b c => a + b * c
  ttest_1samp := fun xs mu => PVal.val (mu - xs.sum)

/-- Concrete scipy stand-in whose t-test always reports NaN, exercising the
degenerate-sample path. -/
def exampleRandNan : Scipy ℕ :=
  { exampleRand with ttest_1samp := fun _ _ => PVal.nan }

/-- Concrete initial program state used by witnesses. -/
def exampleState : ProgState ℕ where
  spec := .Uniform 0 2
  rng := 0

theorem foldl_simulationStep_state_spec (S : Scipy σ) (n nIter : ℕ) (l : List ℕ)
    (ls : LoopState σ) :
    (l.foldl (simulationStep S n nIter) ls).state.spec = ls.state.spec := by
  induction l generalizing ls with
  | nil => rfl
  | cons i t ih => rw [List.foldl_cons, ih]; rfl

theorem foldl_simulationStep_p_values_length (S : Scipy σ) (n nIter : ℕ) (l : List ℕ)
    (ls : LoopState σ) :
    (l.foldl (simulationStep S n nIter) ls).p_values.length = ls.p_values.length + l.length := by
  induction l generalizing ls with
  | nil => simp
  | cons i t ih =>
    rw [List.foldl_cons, ih]
    simp [simulationStep]
    omega

theorem foldl_simulationStep_reports (S : Scipy σ) (n nIter : ℕ) (l : List ℕ)
    (ls : LoopState σ) :
    (l.foldl (simulationStep S n nIter) ls).reports =
      ls.reports ++ (l.filter fun i => progressCondition nIter i).map (progressValue nIter) := by
  induction l generalizing ls with
  | nil => simp
  | cons i t ih =>
    rw [List.foldl_cons, ih]
    by_cases h : progressCondition nIter i <;>
      simp [simulationStep, h, List.append_assoc]

theorem foldl_simulationStep_p_values_eq_trace (S : Scipy σ) (n nIter : ℕ) (l : List ℕ)
    (ls : LoopState σ) (h0 : ls.p_values = ls.trace.map IterationRecord.pValue) :
    (l.foldl (simulationStep S n nIter) ls).p_values =
      (l.foldl (simulationStep S n nIter) ls).trace.map IterationRecord.pValue := by
  induction l generalizing ls with
  | nil => exact h0
  | cons i t ih =>
    rw [List.foldl_cons]
    exact ih _ (by simp [simulationStep, h0])

theorem foldl_simulationStep_trace_hypothesizedMean (S : Scipy σ) (n nIter : ℕ) (l : List ℕ)
    (ls : LoopState σ)
    (h0 : ∀ r ∈ ls.trace,
      r.hypothesizedMean = DistributionSpec.mean S.skewnormMean ls.state.spec) :
    ∀ r ∈ (l.foldl (simulationStep S n nIter) ls).trace,
      r.hypothesizedMean = DistributionSpec.mean S.skewnormMean ls.state.spec := by
  induction l generalizing ls with
  | nil => exact h0
  | cons i t ih =>
    intro r hr
    rw [List.foldl_cons] at hr
    refine ih (simulationStep S n nIter ls i) ?_ r hr
    intro r' hr'
    have hmem : r' ∈ ls.trace ∨
        r' = { sample := (get_sample S ls.state n).1,
               hypothesizedMean :=
                 DistributionSpec.mean S.skewnormMean (get_sample S ls.state n).2.spec,
               pValue := S.ttest_1samp (get_sample S ls.state n).1
                 (DistributionSpec.mean S.skewnormMean (get_sample S ls.state n).2.spec) } := by
      simpa [simulationStep] using hr'
    rcases hmem with h' | h'
    · exact h0 r' h'
    · rw [h']
      rfl

/-- C1: for every distribution spec, sample size and iteration count N > 0,
`simulation` returns normally with a false-positive rate equal to
100 · (number of collected p-values strictly below 0.05) / N, the collected
sequence having exactly N entries.  The 0.05 threshold is the fixed literal
inside `ltPointZeroFive`, not a parameter of `simulation`. -/
theorem simulation_fpr (S : Scipy σ) (st : ProgState σ) (n nIter : ℕ) (h : 0 < nIter) :
    ∃ pvs : List (PVal ℚ),
      (simulation S st n nIter).result =
        .ok (pvs, 100 * ((pvs.filter ltPointZeroFive).length : ℚ) / (nIter : ℚ)) ∧
      pvs.length = nIter := by
  have hq : ((nIter : ℚ)) ≠ 0 := Nat.cast_ne_zero.mpr h.ne'
  refine ⟨(runLoop S st n nIter).p_values, ?_, ?_⟩
  · show (if ((nIter : ℚ) / 100) = 0 then _ else _) = _
    rw [if_neg (by simp [hq])]
    have : (((runLoop S st n nIter).p_values.filter ltPointZeroFive).length : ℚ) /
        ((nIter : ℚ) / 100) =
        100 * (((runLoop S st n nIter).p_values.filter ltPointZeroFive).length : ℚ) /
        (nIter : ℚ) := by
      field_simp
      ring
    rw [this]
  · show ((List.range' 1 nIter).foldl (simulationStep S n nIter) (initialLoopState st)).p_values.length = nIter
    rw [foldl_simulationStep_p_values_length]
    simp [initialLoopState]

/-- Witness for C1: a two-iteration run of the example model returns the
stated FPR formula. -/
theorem simulation_fpr_witness :
    0 < 2 ∧
    ∃ pvs : List (PVal ℚ),
      (simulation exampleRand exampleState 1 2).result =
        .ok (pvs, 100 * ((pvs.filter ltPointZeroFive).length : ℚ) / ((2 : ℕ) : ℚ)) ∧
      pvs.length = 2 :=
  ⟨Nat.zero_lt_two, simulation_fpr exampleRand exampleState 1 2 Nat.zero_lt_two⟩

/-- C2: in every iteration of every run, the hypothesized mean handed to
`ttest_1samp` is exactly the spec's own stored population mean
`obj.mean` — the exact population mean under the spec's current
parameters. -/
theorem simulation_hypothesized_mean (S : Scipy σ) (st : ProgState σ) (n nIter : ℕ) :
    ((simulation S st n nIter).trace.all
      fun r => r.hypothesizedMean == DistributionSpec.mean S.skewnormMean st.spec) = true := by
  rw [List.all_eq_true]
  intro r hr
  have hmem : r ∈ ((List.range' 1 nIter).foldl (simulationStep S n nIter)
      (initialLoopState st)).trace := hr
  have := foldl_simulationStep_trace_hypothesizedMean S n nIter (List.range' 1 nIter)
    (initialLoopState st) (by simp [initialLoopState]) r hmem
  simpa using this

/-- C5: a NaN p-value produced in some iteration does not abort the run:
the simulation still returns normally, the NaN appears in the returned
p-value sequence, the significance comparison counts NaN as not
significant, and dropping the NaN entries leaves the significant count
unchanged. -/
theorem simulation_nan_policy (S : Scipy σ) (st : ProgState σ) (n nIter : ℕ) (h : 0 < nIter)
    (hnan : PVal.nan ∈ (simulation S st n nIter).trace.map IterationRecord.pValue) :
    ∃ pvs fpr,
      (simulation S st n nIter).result = .ok (pvs, fpr) ∧
      PVal.nan ∈ pvs ∧
      ltPointZeroFive PVal.nan = false ∧
      (pvs.filter ltPointZeroFive).length =
        ((pvs.filter fun p => p != PVal.nan).filter ltPointZeroFive).length := by
  have hq : ((nIter : ℚ)) ≠ 0 := Nat.cast_ne_zero.mpr h.ne'
  have hpv : (runLoop S st n nIter).p_values =
      (runLoop S st n nIter).trace.map IterationRecord.pValue :=
    foldl_simulationStep_p_values_eq_trace S n nIter _ _ (by simp [initialLoopState])
  refine ⟨(runLoop S st n nIter).p_values,
    (((runLoop S st n nIter).p_values.filter ltPointZeroFive).length : ℚ) /
      ((nIter : ℚ) / 100), ?_, ?_, rfl, ?_⟩
  · show (if ((nIter : ℚ) / 100) = 0 then _ else _) = _
    rw [if_neg (by simp [hq])]
  · rw [hpv]
    exact hnan
  · have hcomm : ((runLoop S st n nIter).p_values.filter fun p => p != PVal.nan).filter
        ltPointZeroFive =
        ((runLoop S st n nIter).p_values.filter ltPointZeroFive).filter fun p =>
          p != PVal.nan := by
      rw [List.filter_filter, List.filter_filter]
      exact List.filter_congr fun p _ => by cases p <;> simp [ltPointZeroFive, Bool.and_comm]
    have hself : ((runLoop S st n nIter).p_values.filter ltPointZeroFive).filter
        (fun p => p != PVal.nan) =
        (runLoop S st n nIter).p_values.filter ltPointZeroFive := by
      apply List.filter_eq_self.mpr
      intro p hp
      rcases List.mem_filter.mp hp with ⟨_, hlt⟩
      cases p with
      | val q => simp
      | nan => simp [ltPointZeroFive] at hlt
    rw [hcomm, hself]

/-- Witness for C5: with the always-NaN test engine, a one-iteration run
records the NaN and still returns normally. -/
theorem simulation_nan_policy_witness :
    (0 < 1 ∧
      PVal.nan ∈ (simulation exampleRandNan exampleState 2 1).trace.map IterationRecord.pValue) ∧
    ∃ pvs fpr,
      (simulation exampleRandNan exampleState 2 1).result = .ok (pvs, fpr) ∧
      PVal.nan ∈ pvs ∧
      ltPointZeroFive PVal.nan = false ∧
      (pvs.filter ltPointZeroFive).length =
        ((pvs.filter fun p => p != PVal.nan).filter ltPointZeroFive).length :=
  ⟨⟨Nat.one_pos, by decide⟩,
    simulation_nan_policy exampleRandNan exampleState 2 1 Nat.one_pos (by decide)⟩

/-- Formalization of the behaviour C8 allows: either the run is rejected at
the configuration boundary (the spec-modelled `invalidConfiguration`
failure) or it returns normally with an empty p-value sequence (the FPR
component is left unconstrained, which only makes the predicate easier to
satisfy). -/
def c8PolicyHolds (o : SimulationOutcome σ) : Bool :=
  match o.result with
  | .error .invalidConfiguration => true
  | .ok (pvs, _) => pvs.isEmpty
  | .error .zeroDivisionError => false

/-- C8 counterexample: with iterations = 0 the code does neither of the two
policies the claim allows — it raises `ZeroDivisionError` from the FPR
division `len([...]) / (n_iter/100)` after the empty loop. -/
theorem c8PolicyHolds_fails_at_zero :
    c8PolicyHolds (simulation exampleRand exampleState 5 0) = false ∧
    (simulation exampleRand exampleState 5 0).result = .error .zeroDivisionError := by
  have hres : (simulation exampleRand exampleState 5 0).result = .error .zeroDivisionError := by
    show (if (((0 : ℕ) : ℚ) / 100) = 0 then _ else _) = _
    rw [if_pos (by norm_num)]
  exact ⟨by simp only [c8PolicyHolds, hres], hres⟩

/-- C8 (amended): calling the simulation with iterations = 0 runs zero
iterations and then fails with a division-by-zero error while computing the
FPR; it is neither rejected at the configuration boundary nor returned as
an empty result. -/
theorem simulation_zero_iterations (S : Scipy σ) (st : ProgState σ) (n : ℕ) :
    (simulation S st n 0).result = .error .zeroDivisionError ∧
    (simulation S st n 0).trace = [] ∧
    (simulation S st n 0).reports = [0] := by
  refine ⟨?_, rfl, rfl⟩
  show (if ((0 : ℕ) : ℚ) / 100 = 0 then _ else _) = _
  rw [if_pos (by norm_num)]

/-- C9: the run is a pure function of the spec, the sample size, the
iteration count and the random-source state: two runs whose initial states
agree componentwise produce identical outcomes — in particular bit-identical
p-value sequences — so no hidden mutable state leaks between runs. -/
theorem simulation_deterministic (S : Scipy σ) (n nIter : ℕ) (st1 st2 : ProgState σ)
    (hspec : st1.spec = st2.spec) (hrng : st1.rng = st2.rng) :
    simulation S st1 n nIter = simulation S st2 n nIter := by
  have h : st1 = st2 := by
    cases st1
    cases st2
    cases hspec
    cases hrng
    rfl
  rw [h]

/-- Witness for C9: two identically seeded example runs coincide. -/
theorem simulation_deterministic_witness :
    (exampleState.spec = exampleState.spec ∧ exampleState.rng = exampleState.rng) ∧
    simulation exampleRand exampleState 1 2 = simulation exampleRand exampleState 1 2 :=
  ⟨⟨rfl, rfl⟩, simulation_deterministic exampleRand 1 2 exampleState exampleState rfl rfl⟩

/-- C10: the run never writes to the distribution spec: the final program
state carries exactly the initial spec, hence its parameters and every
value derived from them — the stored mean, the dispersion, the plotting
domain — are identical before and after the run. -/
theorem simulation_preserves_spec (S : Scipy σ) (st : ProgState σ) (n nIter : ℕ) :
    (simulation S st n nIter).finalState.spec = st.spec ∧
    DistributionSpec.mean S.skewnormMean (simulation S st n nIter).finalState.spec =
      DistributionSpec.mean S.skewnormMean st.spec ∧
    ∀ f : DistributionSpec → ℚ, f (simulation S st n nIter).finalState.spec = f st.spec := by
  have h : (simulation S st n nIter).finalState.spec = st.spec :=
    foldl_simulationStep_state_spec S n nIter (List.range' 1 nIter) (initialLoopState st)
  exact ⟨h, by rw [h], fun f => by rw [h]⟩

/-- Iterations at which the loop calls `prog_bar.progress`: the `i` in
`1, ..., n_iter` satisfying `i % (n_iter/10) == 0`. -/
def notificationIters (nIter : ℕ) : List ℕ :=
  (List.range' 1 nIter).filter fun i => progressCondition nIter i

theorem progressCondition_iff (nIter i : ℕ) (h : 0 < nIter) :
    progressCondition nIter i = true ↔ nIter ∣ 10 * i := by
  have hq : ((nIter : ℚ)) ≠ 0 := Nat.cast_ne_zero.mpr h.ne'
  have hy : ((nIter : ℚ) / 10) ≠ 0 := div_ne_zero hq (by norm_num)
  have hdiv : (i : ℚ) / ((nIter : ℚ) / 10) = ((10 * i : ℕ) : ℚ) / ((nIter : ℕ) : ℚ) := by
    push_cast
    rw [div_div_eq_mul_div]
    ring
  simp only [progressCondition, ratDivides, Bool.and_eq_true, decide_eq_true_eq, beq_iff_eq]
  rw [hdiv, Rat.den_div_natCast_eq_one_iff _ _ h.ne']
  exact and_iff_right hy

theorem progressCondition_eq_decide (nIter i : ℕ) (h : 0 < nIter) :
    progressCondition nIter i = decide (nIter ∣ 10 * i) := by
  rw [Bool.eq_iff_iff, progressCondition_iff nIter i h, decide_eq_true_eq]

theorem notificationIters_eq_dvdFilter (nIter : ℕ) (h : 0 < nIter) :
    notificationIters nIter =
      (List.range' 1 nIter).filter fun i => decide (nIter ∣ 10 * i) :=
  List.filter_congr fun i _ => progressCondition_eq_decide nIter i h

theorem mem_notificationIters (nIter i : ℕ) (h : 0 < nIter) :
    i ∈ notificationIters nIter ↔ 1 ≤ i ∧ i ≤ nIter ∧ nIter ∣ 10 * i := by
  rw [notificationIters, List.mem_filter, List.mem_range'_1, progressCondition_iff nIter i h]
  constructor
  · rintro ⟨⟨h1, h2⟩, h3⟩
    exact ⟨h1, by omega, h3⟩
  · rintro ⟨h1, h2, h3⟩
    exact ⟨⟨h1, by omega⟩, h3⟩


theorem notificationIters_pairwise_lt (nIter : ℕ) :
    (notificationIters nIter).Pairwise (· < ·) :=
  (List.pairwise_lt_range' 1 nIter).filter _

theorem nIter_mem_notificationIters (nIter : ℕ) (h : 0 < nIter) :
    nIter ∈ notificationIters nIter :=
  (mem_notificationIters nIter nIter h).mpr ⟨h, le_refl _, ⟨10, by ring⟩⟩

theorem progressValue_eq (nIter i : ℕ) (h : 0 < nIter) :
    progressValue nIter i = ((100 * i / nIter : ℕ) : ℤ) := by
  have h1 : (i : ℚ) / ((nIter : ℚ) / 100) = ((100 * i : ℕ) : ℚ) / ((nIter : ℕ) : ℚ) := by
    push_cast
    rw [div_div_eq_mul_div]
    ring
  have h2 : ¬ ((i : ℚ) / ((nIter : ℚ) / 100) < 0) := by
    push_neg
    positivity
  rw [progressValue, pyInt, if_neg h2, h1]
  have h3 := Rat.floor_intCast_div_natCast ((100 * i : ℕ) : ℤ) nIter
  rw [show (((100 * i : ℕ) : ℤ) : ℚ) = ((100 * i : ℕ) : ℚ) by push_cast; ring] at h3
  rw [h3]
  omega

theorem progressValue_mono (nIter : ℕ) (h : 0 < nIter) {i j : ℕ} (hij : i ≤ j) :
    progressValue nIter i ≤ progressValue nIter j := by
  rw [progressValue_eq nIter i h, progressValue_eq nIter j h]
  exact_mod_cast Nat.div_le_div_right (Nat.mul_le_mul_left 100 hij)

theorem progressValue_nonneg (nIter i : ℕ) (h : 0 < nIter) : 0 ≤ progressValue nIter i := by
  rw [progressValue_eq nIter i h]
  exact Int.natCast_nonneg _

theorem progressValue_le_100 (nIter i : ℕ) (h : 0 < nIter) (hi : i ≤ nIter) :
    progressValue nIter i ≤ 100 := by
  rw [progressValue_eq nIter i h]
  have h1 : 100 * i / nIter ≤ 100 * nIter / nIter :=
    Nat.div_le_div_right (Nat.mul_le_mul_left 100 hi)
  have h2 : 100 * nIter / nIter = 100 := Nat.mul_div_cancel 100 h
  exact_mod_cast le_trans h1 (le_of_eq h2)

theorem progressValue_eq_100_iff (nIter i : ℕ) (h : 0 < nIter) (h1 : 1 ≤ i)
    (h2 : i ≤ nIter) : progressValue nIter i = 100 ↔ i = nIter := by
  rw [progressValue_eq nIter i h]
  constructor
  · intro he
    have he' : (100 : ℕ) * i / nIter = 100 := by exact_mod_cast he
    have hge : 100 * nIter ≤ 100 * i := (Nat.le_div_iff_mul_le h).mp (le_of_eq he'.symm)
    omega
  · rintro rfl
    exact_mod_cast Nat.mul_div_cancel 100 h

theorem notificationIters_nodup (nIter : ℕ) : (notificationIters nIter).Nodup :=
  (notificationIters_pairwise_lt nIter).imp fun hlt => Nat.ne_of_lt hlt

theorem notificationIters_gap (nIter : ℕ) (h : 0 < nIter) :
    (notificationIters nIter).Pairwise fun i j => nIter ≤ 10 * (j - i) := by
  refine List.Pairwise.imp_of_mem ?_ (notificationIters_pairwise_lt nIter)
  intro a b ha hb hlt
  have hda := ((mem_notificationIters nIter a h).mp ha).2.2
  have hdb := ((mem_notificationIters nIter b h).mp hb).2.2
  have hdvd : nIter ∣ 10 * b - 10 * a := Nat.dvd_sub' hdb hda
  have heq : 10 * b - 10 * a = 10 * (b - a) := by omega
  rw [heq] at hdvd
  exact Nat.le_of_dvd (by omega) hdvd

theorem reports_pairwise_le (nIter : ℕ) (h : 0 < nIter) :
    (0 :: (notificationIters nIter).map (progressValue nIter)).Pairwise (· ≤ ·) := by
  refine List.pairwise_cons.mpr ⟨?_, ?_⟩
  · intro v hv
    rcases List.mem_map.mp hv with ⟨i, _, rfl⟩
    exact progressValue_nonneg nIter i h
  · exact List.Pairwise.map _ (fun a b hab => progressValue_mono nIter h (le_of_lt hab))
      (notificationIters_pairwise_lt nIter)

theorem reports_count_100 (nIter : ℕ) (h : 0 < nIter) :
    ((notificationIters nIter).map (progressValue nIter)).count 100 = 1 := by
  rw [List.count, List.countP_map]
  have hcongr : ∀ i ∈ notificationIters nIter,
      (((· == (100 : ℤ)) ∘ progressValue nIter) i ↔ ((· == nIter) : ℕ → Bool) i) := by
    intro i hi
    rcases (mem_notificationIters nIter i h).mp hi with ⟨h1, h2, _⟩
    simp only [Function.comp_apply, beq_iff_eq]
    exact progressValue_eq_100_iff nIter i h h1 h2
  rw [List.countP_congr hcongr]
  exact List.count_eq_one_of_mem (notificationIters_nodup nIter)
    (nIter_mem_notificationIters nIter h)

/-- C7 (amended): the reporter is told a starting 0, then notified exactly
at the iterations `i` with `i % (n_iter/10) == 0` — any two of which are at
least one tenth of the total iteration count apart, so for more than ten
iterations it is never called once per iteration; the reported completion
percentages are monotonically non-decreasing values in [0, 100] (fractions
in [0, 1] of the percent scale the source uses), and the final 100-percent
report occurs exactly once per run.  The source's notification interval is
one tenth of the run, not the one percent the claim states. -/
theorem simulation_progress_reports (S : Scipy σ) (st : ProgState σ) (n nIter : ℕ)
    (h : 0 < nIter) :
    (simulation S st n nIter).reports =
      0 :: (notificationIters nIter).map (progressValue nIter) ∧
    List.Chain' (· ≤ ·) (simulation S st n nIter).reports ∧
    ((simulation S st n nIter).reports.all fun v => decide (0 ≤ v ∧ v ≤ 100)) = true ∧
    (simulation S st n nIter).reports.count 100 = 1 ∧
    (notificationIters nIter).Pairwise fun i j => nIter ≤ 10 * (j - i) := by
  have hrep : (simulation S st n nIter).reports =
      0 :: (notificationIters nIter).map (progressValue nIter) := by
    show (runLoop S st n nIter).reports = _
    rw [runLoop, foldl_simulationStep_reports]
    rfl
  refine ⟨hrep, ?_, ?_, ?_, notificationIters_gap nIter h⟩
  · rw [hrep]
    exact (reports_pairwise_le nIter h).chain'
  · rw [hrep, List.all_eq_true]
    intro v hv
    rw [decide_eq_true_eq]
    rcases List.mem_cons.mp hv with rfl | hv'
    · exact ⟨le_refl 0, by norm_num⟩
    · rcases List.mem_map.mp hv' with ⟨i, hi, rfl⟩
      rcases (mem_notificationIters nIter i h).mp hi with ⟨_, h2, _⟩
      exact ⟨progressValue_nonneg nIter i h, progressValue_le_100 nIter i h h2⟩
  · rw [hrep, List.count_cons, reports_count_100 nIter h]
    norm_num

/-- Witness for C7's amended theorem: the progress behaviour at the
concrete run with 20 iterations. -/
theorem simulation_progress_reports_witness :
    0 < 20 ∧
    ((simulation exampleRand exampleState 1 20).reports =
      0 :: (notificationIters 20).map (progressValue 20) ∧
    List.Chain' (· ≤ ·) (simulation exampleRand exampleState 1 20).reports ∧
    ((simulation exampleRand exampleState 1 20).reports.all
      fun v => decide (0 ≤ v ∧ v ≤ 100)) = true ∧
    (simulation exampleRand exampleState 1 20).reports.count 100 = 1 ∧
    (notificationIters 20).Pairwise fun i j => 20 ≤ 10 * (j - i)) :=
  ⟨by norm_num,
    simulation_progress_reports exampleRand exampleState 1 20 (by norm_num)⟩

/-- Formalization of the notification-density requirement of C7, read
generously: consecutive notification iterations are at most 4 percent of
the total apart (the claim asks for intervals on the order of 1 percent of
the total, so 4 percent is a strict upper reading). -/
def onePercentIntervals (nIter : ℕ) (l : List ℕ) : Prop :=
  l.Chain' fun i j => 25 * (j - i) ≤ nIter

/-- C7 counterexample: in a 200-iteration run the loop notifies the
reporter at iterations 20, 40, ..., 200 — once every tenth of the run, ten
times in total — so the gaps are 10 percent of the iteration count, not on
the order of 1 percent. -/
theorem simulation_progress_onePercent_fails :
    (simulation exampleRand exampleState 1 200).reports =
      0 :: (notificationIters 200).map (progressValue 200) ∧
    notificationIters 200 = [20, 40, 60, 80, 100, 120, 140, 160, 180, 200] ∧
    ¬ onePercentIntervals 200 (notificationIters 200) := by
  have hlist : notificationIters 200 = [20, 40, 60, 80, 100, 120, 140, 160, 180, 200] := by
    rw [notificationIters_eq_dvdFilter 200 (by norm_num)]
    decide
  refine ⟨?_, hlist, ?_⟩
  · show (runLoop exampleRand exampleState 1 200).reports = _
    rw [runLoop, foldl_simulationStep_reports]
    rfl
  · rw [onePercentIntervals, hlist]
    simp [List.chain'_cons]

/-- Sample mean of the t-test formula in section 4.2 of the spec. -/
noncomputable def sampleMeanR (xs : List ℝ) : ℝ := xs.sum / xs.length

/-- Bessel-corrected sample variance (divisor n − 1) of section 4.2. -/
noncomputable def sampleVarR (xs : List ℝ) : ℝ :=
  ((xs.map fun x => (x - sampleMeanR xs) ^ 2).sum) / ((xs.length : ℝ) - 1)

/-- Bessel-corrected sample standard deviation. -/
noncomputable def sampleStdR (xs : List ℝ) : ℝ := Real.sqrt (sampleVarR xs)

/-- Statistic t = (x̄ − μ₀)/(s/√n) of section 4.2. -/
noncomputable def tStatistic (xs : List ℝ) (mu0 : ℝ) : ℝ :=
  (sampleMeanR xs - mu0) / (sampleStdR xs / Real.sqrt (xs.length))

/-- Modelled from the spec: scipy's `ttest_1samp`, whose code is not part
of this repository.  Section 4.2 prescribes the two-sided p-value
2 · (1 − F(|t|)), F the CDF of Student's t with n − 1 degrees of freedom
(abstracted by `tcdf`, as it has no closed form), and failing with a NaN
p-value — not a crash — when n < 2; section 7 adds that a degenerate
zero-variance sample, whose statistic is undefined, likewise yields an
undefined p-value recorded as non-significant. -/
noncomputable def ttest_1samp (tcdf : ℕ → ℝ → ℝ) (xs : List ℝ) (mu0 : ℝ) : PVal ℝ :=
  if xs.length < 2 then .nan
  else if sampleVarR xs = 0 then .nan
  else .val (2 * (1 - tcdf (xs.length - 1) |tStatistic xs mu0|))

/-- C6 (amended): for every CDF with the standard properties (monotone,
bounded by 1, one half at 0), every sample of size n ≥ 2 with nonzero
sample variance gets the standard two-sided p-value
2 · (1 − F(|t|)) ∈ [0, 1] with t built from the Bessel-corrected standard
deviation, while a sample of size n < 2 gets a NaN p-value rather than a
crash (and so does a zero-variance sample, per section 7). -/
theorem ttest_1samp_spec (tcdf : ℕ → ℝ → ℝ)
    (hmono : ∀ df, Monotone (tcdf df))
    (hle : ∀ df x, tcdf df x ≤ 1)
    (hhalf : ∀ df, tcdf df 0 = 1 / 2)
    (xs : List ℝ) (mu0 : ℝ) :
    (xs.length < 2 → ttest_1samp tcdf xs mu0 = PVal.nan) ∧
    (2 ≤ xs.length → sampleVarR xs ≠ 0 →
      ttest_1samp tcdf xs mu0 =
        PVal.val (2 * (1 - tcdf (xs.length - 1) |tStatistic xs mu0|)) ∧
      0 ≤ 2 * (1 - tcdf (xs.length - 1) |tStatistic xs mu0|) ∧
      2 * (1 - tcdf (xs.length - 1) |tStatistic xs mu0|) ≤ 1) := by
  constructor
  · intro hlen
    simp [ttest_1samp, hlen]
  · intro hlen hvar
    have hnl : ¬ xs.length < 2 := not_lt.mpr hlen
    refine ⟨by simp [ttest_1samp, hnl, hvar], ?_, ?_⟩
    · have h1 : tcdf (xs.length - 1) |tStatistic xs mu0| ≤ 1 := hle _ _
      linarith
    · have h0 : tcdf (xs.length - 1) 0 = 1 / 2 := hhalf _
      have h2 : (1 : ℝ) / 2 ≤ tcdf (xs.length - 1) |tStatistic xs mu0| := by
        rw [← h0]
        exact hmono _ (abs_nonneg _)
      linarith

/-- C6 counterexample: a constant sample of size 2 — within the claim's
stated scope of every sample of size n ≥ 2 — has zero variance, and the
engine reports NaN for it rather than a p-value in [0, 1] given by the CDF
formula. -/
theorem ttest_1samp_nan_at_constant_sample :
    ttest_1samp (fun _ _ => (1 : ℝ) / 2) [1, 1] 0 = PVal.nan ∧
    ([1, 1] : List ℝ).length = 2 := by
  constructor
  · have hvar : sampleVarR [1, 1] = 0 := by
      norm_num [sampleVarR, sampleMeanR]
    simp [ttest_1samp, hvar]
  · rfl

/-- Witness for C6's amended theorem: the constant-half CDF on the sample
0, 2 with hypothesized mean 0 gives the p-value 2 · (1 − 1/2) = 1. -/
theorem ttest_1samp_spec_witness :
    sampleVarR ([0, 2] : List ℝ) ≠ 0 ∧
    ttest_1samp (fun _ _ => (1 : ℝ) / 2) [0, 2] 0 = PVal.val 1 := by
  have hvar : sampleVarR ([0, 2] : List ℝ) = 2 := by
    simp [sampleVarR, sampleMeanR]
    norm_num
  have hvar' : sampleVarR ([0, 2] : List ℝ) ≠ 0 := by
    rw [hvar]
    norm_num
  have H := (ttest_1samp_spec (fun _ _ => (1 : ℝ) / 2) (fun _ => monotone_const)
    (fun _ _ => by norm_num) (fun _ => rfl) [0, 2] 0).2 (by norm_num) hvar'
  refine ⟨hvar', ?_⟩
  rw [H.1]
  norm_num
